import Mathlib

/-!
Shallow embedding of `rss_monitor.py`.

Modelling conventions:
* Machine timestamps (`datetime` values) are integers (seconds); the several
  `datetime.now()` calls inside one pass are modelled by a single instant
  `Env.now`, which none of the verified properties distinguish.
* External collaborators (hashlib's sha256 hexdigest, `datetime.isoformat` /
  `datetime.fromisoformat`, the HTTP fetch, readability extraction and the
  HTML tag stripper) are fields of an `Env` record: the program only pipes
  their results around, so theorems hold for every instantiation.
* Parsed feed items are records of optional string fields, mirroring
  `feedparser` dictionary access: `none` models an absent key, `some s` a
  present key with value `s`; Python truthiness of a string is `s ≠ ""`.
* The SQLite tables are association lists / lists of rows; `INSERT` is an
  append, `UPDATE ... WHERE feed_url = ?` is a keyed map, `DELETE ... WHERE`
  is a filter.  The UNIQUE(feed_url, identifier) constraint is expressed by
  the predicate `PairsUnique` on the article table.
-/

namespace RssMonitor

/-- Source line 29: `PRUNE_OLDER_THAN_DAYS = 30`. -/
def PRUNE_OLDER_THAN_DAYS : Int := 30

/-- Source line 30: `ERROR_THRESHOLD = 3`. -/
def ERROR_THRESHOLD : Nat := 3

/-- Source lines 17-20: the configured `(feed url, keyword filter)` pairs. -/
def RSS_FEEDS : List (String × String) :=
  [("https://news.opensuse.org/feed/", ""), ("https://www.reddit.com/r/python.rss", "python")]

/-- A parsed feed entry as exposed by `feedparser`: each field is `none` when
the key is absent. -/
structure Item where
  guid : Option String
  link : Option String
  title : Option String
  description : Option String
  published : Option String
  pubdate : Option String
deriving DecidableEq

/-- Outcome of the HTTP fetch plus readability parse attempted by
`fetch_article_content` (source lines 79-82): `netError` models a raising
`requests.get`, `httpError` a status that makes `raise_for_status` raise,
`parseError` a raising `Document`/stripper, and `ok` a successful response
body. -/
inductive FetchOutcome where
  | netError
  | httpError (status : Nat)
  | parseError
  | ok (html : String)
deriving DecidableEq

/-- The external collaborators and the wall clock for one pass. -/
structure Env where
  /-- Models `hashlib.sha256(s.encode()).hexdigest()`. -/
  sha256hex : String → String
  /-- Models `datetime.fromisoformat`; `none` models a raising call. -/
  fromisoformat : String → Option Int
  /-- Models the `datetime.now().isoformat()` rendering of an instant. -/
  isoformat : Int → String
  /-- the network: what fetching a given URL produces this pass -/
  fetch : String → FetchOutcome
  /-- Models `Document(html).summary()`. -/
  extract : String → String
  /-- the `MLStripper` HTML-tag stripper -/
  strip : String → String
  /-- Models `datetime.now()`. -/
  now : Int

/-- One row of the `feeds` table (source lines 44-48). -/
structure FeedRow where
  last_checked : Int
  failure_count : Nat
deriving DecidableEq

/-- One row of the `articles` table (source lines 51-60); the AUTOINCREMENT
id is the row's position in the list. -/
structure ArticleRow where
  feed_url : String
  identifier : String
  title : String
  link : String
  description : String
  fetched_content : Option String
  pub_date : Int
deriving DecidableEq

/-- The persistent store: both tables. -/
structure DB where
  feeds : List (String × FeedRow)
  articles : List ArticleRow
deriving DecidableEq

/-- Which of the two `send_email` call sites produced a message: the
parse-failure alert (line 161) or the new-article batch (line 199). -/
inductive EmailKind where
  | alert
  | articles
deriving DecidableEq

/-- An attempted `send_email` dispatch (delivery itself is fire-and-forget). -/
structure Email where
  kind : EmailKind
  subject : String
  body : String
deriving DecidableEq

/-- Python's `a or b` for an optional string `a`: `None` and `""` are falsy. -/
def pyOr : Option String → String → String
  | some s, b => if s = "" then b else s
  | none, b => b

/-- Python's `str.lower()` restricted to the ASCII range exercised here. -/
def pyLower (s : String) : String := ⟨s.data.map Char.toLower⟩

/-- Is `pattern` an initial segment of the list? (Python slice comparison.) -/
def isPrefixList : List Char → List Char → Bool
  | [], _ => true
  | _ :: _, [] => false
  | a :: as, b :: bs => a == b && isPrefixList as bs

/-- Python's substring test `needle in haystack`. -/
def containsSub (needle : List Char) : List Char → Bool
  | [] => isPrefixList needle []
  | c :: t => isPrefixList needle (c :: t) || containsSub needle t

/-- Left-to-right non-overlapping replacement, the semantics of Python's
`str.replace` for a non-empty pattern.  `skip` counts pattern characters
still to drop after an accepted match. -/
def replaceAux (pattern replacement : List Char) : Nat → List Char → List Char
  | _ + 1, [] => []
  | skip + 1, _ :: t => replaceAux pattern replacement skip t
  | 0, [] => []
  | 0, c :: t =>
    if isPrefixList pattern (c :: t) then
      replacement ++ replaceAux pattern replacement (pattern.length - 1) t
    else c :: replaceAux pattern replacement 0 t

/-- Python's `s.replace(pattern, replacement)`.  The program only calls it
with the one-character pattern `"Z"`; Python's empty-pattern interleaving
behaviour is therefore left unmodelled (the guard returns `s`). -/
def pyReplace (s pattern replacement : String) : String :=
  if pattern.data = [] then s
  else ⟨replaceAux pattern.data replacement.data 0 s.data⟩

/-- Source lines 68-75: `get_article_identifier(item)`. -/
def get_article_identifier (sha256hex : String → String) (item : Item) : String :=
  if item.guid.getD "" ≠ "" then item.guid.getD ""
  else if item.link.getD "" ≠ "" then item.link.getD ""
  else
    let title := item.title.getD ""
    let pubdate := item.published.getD (item.pubdate.getD "")
    sha256hex (title ++ pubdate)

/-- Source lines 77-99: `fetch_article_content(url)`.  Every raising branch
of the `try` block is absorbed into `none` by the bare `except`. -/
def fetch_article_content (env : Env) (url : String) : Option String :=
  match env.fetch url with
  | .ok html => some (env.strip (env.extract html))
  | _ => none

/-- Source lines 101-110: `matches_filter(item, fetched_content, filter_keywords)`. -/
def matches_filter (item : Item) (fetched_content : Option String)
    (filter_keywords : String) : Bool :=
  if filter_keywords = "" then true
  else
    let kw := pyLower filter_keywords
    let search_text := pyLower (item.title.getD "") ++ pyLower (item.description.getD "")
      ++ pyLower (pyOr fetched_content "")
    containsSub kw.data search_text.data

/-- Source lines 112-118: `prune_old_articles()`, over an explicit article
table and cutoff.  The second component is the Python function's return
value, which is `None`. -/
def prune_old_articles (articles : List ArticleRow) (cutoff : Int) :
    List ArticleRow × Option Nat :=
  (articles.filter (fun a => !decide (a.pub_date < cutoff)), none)

/-- Source lines 179-183: the publication-date handling in the item loop. -/
def parse_pub_date (env : Env) (item : Item) : Int :=
  let raw := item.published.getD (item.pubdate.getD (env.isoformat env.now))
  match env.fromisoformat (pyReplace raw "Z" "+00:00") with
  | some d => d
  | none => env.now

/-- Source line 178: `fetch_article_content(link) if link else None`, with
`link = item.get("link", "No link")`. -/
def contentOf (env : Env) (item : Item) : Option String :=
  let link := item.link.getD "No link"
  if link = "" then none else fetch_article_content env link

/-- The item filter as evaluated in the loop: the keyword test against the
content this pass's network yields for the item. -/
def passesFilter (env : Env) (kw : String) (item : Item) : Bool :=
  matches_filter item (contentOf env item) kw

/-- The tuple appended to `new_articles` (source line 186). -/
structure NewArt where
  identifier : String
  title : String
  link : String
  description : String
  fetched_content : Option String
  pub_date : Int
deriving DecidableEq

/-- The `articles` row an accepted item is inserted as (source lines 194-197). -/
def NewArt.toRow (a : NewArt) (feed_url : String) : ArticleRow :=
  ⟨feed_url, a.identifier, a.title, a.link, a.description, a.fetched_content, a.pub_date⟩

/-- Source lines 168-169: `SELECT identifier FROM articles WHERE feed_url = ?`,
collected into the in-memory seen set (list membership models set membership). -/
def seenIds (articles : List ArticleRow) (feed_url : String) : List String :=
  (articles.filter (fun a => a.feed_url == feed_url)).map (·.identifier)

/-- One iteration of the item loop (source lines 172-187) over the running
state `(new_articles, seen, fetched-URL trace)`.  The third component records
each URL actually passed to `fetch_article_content`. -/
def processItem (env : Env) (filter_keywords : String) (item : Item)
    (news : List NewArt) (seen fetched : List String) :
    List NewArt × List String × List String :=
  let identifier := get_article_identifier env.sha256hex item
  if identifier ∈ seen then (news, seen, fetched)
  else
    let title := item.title.getD "No title"
    let link := item.link.getD "No link"
    let description := item.description.getD "No description"
    let fetched_content := if link = "" then none else fetch_article_content env link
    let fetched' := if link = "" then fetched else fetched ++ [link]
    let pub_date := parse_pub_date env item
    if matches_filter item fetched_content filter_keywords then
      (news ++ [⟨identifier, title, link, description, fetched_content, pub_date⟩],
       identifier :: seen, fetched')
    else (news, seen, fetched')

/-- The whole item loop over `feed.entries`. -/
def collectNew (env : Env) (filter_keywords : String)
    (news : List NewArt) (seen fetched : List String) :
    List Item → List NewArt × List String × List String
  | [] => (news, seen, fetched)
  | item :: rest =>
    let r := processItem env filter_keywords item news seen fetched
    collectNew env filter_keywords r.1 r.2.1 r.2.2 rest

/-- What `feedparser.parse` returned for a feed: a bozo failure with its
`bozo_exception` text, or a parsed feed title and entry list. -/
inductive ParseResult where
  | bozo (err : String)
  | ok (feedTitle : Option String) (entries : List Item)
deriving DecidableEq

/-- Models `SELECT ... WHERE feed_url = ?` on the feeds table. -/
def lookupFeed : List (String × FeedRow) → String → Option FeedRow
  | [], _ => none
  | (u, r) :: t, url => if u = url then some r else lookupFeed t url

/-- Models `UPDATE feeds SET ... WHERE feed_url = ?`: rewrite every matching row. -/
def updateFeed : List (String × FeedRow) → String → (FeedRow → FeedRow) →
    List (String × FeedRow)
  | [], _, _ => []
  | (u, r) :: t, url, f =>
    if u = url then (u, f r) :: updateFeed t url f
    else (u, r) :: updateFeed t url f

/-- The alert message of source lines 159-161. -/
def alertEmail (feed_url : String) (failure_count : Nat) (err : String) : Email :=
  ⟨.alert, "RSS Monitor Error: " ++ feed_url,
    "Failed to parse feed " ++ feed_url ++ " " ++ toString failure_count
      ++ " times. Error: " ++ err⟩

/-- One article's paragraph of the notification body (source line 193). -/
def articleLine (title link : String) (fetched_content : Option String)
    (description : String) : String :=
  "Title: " ++ title ++ "\nLink: " ++ link ++ "\nContent: "
    ++ pyOr fetched_content description ++ "\n\n"

/-- The batched notification of source lines 190-199. -/
def articlesEmail (feed_title : String) (news : List NewArt) : Email :=
  ⟨.articles, "New RSS Articles: " ++ feed_title,
    news.foldl (fun b a => b ++ articleLine a.title a.link a.fetched_content a.description)
      ("New articles in " ++ feed_title ++ ":\n\n")⟩

/-- Source lines 151-201: the per-feed body of the orchestrator loop.
Returns the updated store, the attempted email dispatches, and the trace of
URLs handed to `fetch_article_content`.  The `getD 0` in the bozo branch is
never exercised from `monitor_feeds`, which inserts the feed row first. -/
def processFeed (env : Env) (db : DB) (feed_url filter_keywords : String) :
    ParseResult → DB × List Email × List String
  | .bozo err =>
    let feeds := updateFeed db.feeds feed_url
      (fun r => { r with failure_count := r.failure_count + 1 })
    let failure_count := ((lookupFeed feeds feed_url).map (·.failure_count)).getD 0
    let emails := if ERROR_THRESHOLD ≤ failure_count then
      [alertEmail feed_url failure_count err] else []
    ({ db with feeds := feeds }, emails, [])
  | .ok feedTitle entries =>
    let feeds := updateFeed db.feeds feed_url (fun _ => ⟨env.now, 0⟩)
    let seen0 := seenIds db.articles feed_url
    let r := collectNew env filter_keywords [] seen0 [] entries
    ({ feeds := feeds,
       articles := if r.1 = [] then db.articles
         else db.articles ++ r.1.map (·.toRow feed_url) },
     (if r.1 = [] then [] else [articlesEmail (feedTitle.getD feed_url) r.1]),
     r.2.2)

/-- Source lines 140-145: `INSERT OR IGNORE INTO feeds ...` for every
configured feed. -/
def ensureFeeds (feeds : List (String × FeedRow)) (cfg : List (String × String))
    (now : Int) : List (String × FeedRow) :=
  cfg.foldl (fun fs p => if (lookupFeed fs p.1).isSome then fs else fs ++ [(p.1, ⟨now, 0⟩)])
    feeds

/-- The `for feed_url, filter_keywords in RSS_FEEDS` loop (source line 147),
with `parses` giving each feed's `feedparser.parse` result this pass. -/
def runFeeds (env : Env) (parses : String → ParseResult) :
    DB → List (String × String) → DB × List Email × List String
  | db, [] => (db, [], [])
  | db, (url, kw) :: rest =>
    let r := processFeed env db url kw (parses url)
    let r2 := runFeeds env parses r.1 rest
    (r2.1, r.2.1 ++ r2.2.1, r.2.2 ++ r2.2.2)

/-- The cutoff `datetime.now() - timedelta(days=PRUNE_OLDER_THAN_DAYS)`
(source line 113), in seconds. -/
def retentionCutoff (env : Env) : Int := env.now - PRUNE_OLDER_THAN_DAYS * 86400

/-- Source lines 136-203: one whole `monitor_feeds()` pass over a
configuration, ending with the single prune. -/
def monitor_feeds (env : Env) (cfg : List (String × String))
    (parses : String → ParseResult) (db : DB) : DB × List Email × List String :=
  let dbInit : DB := { db with feeds := ensureFeeds db.feeds cfg env.now }
  let r := runFeeds env parses dbInit cfg
  ({ r.1 with articles := (prune_old_articles r.1.articles (retentionCutoff env)).1 },
   r.2.1, r.2.2)

/-- The UNIQUE(feed_url, identifier) constraint as a predicate on the table. -/
def PairsUnique (articles : List ArticleRow) : Prop :=
  (articles.map (fun a => (a.feed_url, a.identifier))).Nodup

/-- The article-kind dispatches among a batch of emails. -/
def articleEmails (emails : List Email) : List Email :=
  emails.filter (fun e => e.kind == .articles)

/-- Repeating a whole per-feed pass (used for "N consecutive failing passes"). -/
def iterPasses (f : DB → DB) : Nat → DB → DB
  | 0, db => db
  | n + 1, db => iterPasses f n (f db)

/-- The store after one pass over a feed whose parse failed. -/
def bozoStep (env : Env) (url kw err : String) (db : DB) : DB :=
  (processFeed env db url kw (.bozo err)).1

/-! ### Concrete fixtures used by witnesses and counterexamples -/

/-- A minimal environment: every fetch fails, no date ever parses. -/
def envW : Env :=
  ⟨fun s => "sha:" ++ s, fun _ => none, fun _ => "t", fun _ => .netError,
   fun s => s, fun s => s, 0⟩

/-- A feeds table holding one row for feed "f". -/
def dbW4 : DB := ⟨[("f", ⟨5, 0⟩)], []⟩

/-- An item carrying a GUID (and every other field). -/
def itemG : Item := ⟨some "g1", some "L", some "T", some "D", some "P", none⟩

/-- Environment for the idempotence counterexample: now is just past the
30-day window, and the one parsable date string denotes epoch 0. -/
def envC2 : Env :=
  ⟨fun s => s, fun s => if s = "1970-01-01T00:00:00+00:00" then some 0 else none,
   fun _ => "x", fun _ => .netError, fun s => s, fun s => s, 2592100⟩

/-- A feed item published at epoch 0, i.e. before the retention cutoff. -/
def itemC2 : Item := ⟨some "g1", none, some "T", some "D", some "1970-01-01T00:00:00Z", none⟩

/-- Every feed parses to the single old item. -/
def parsesC2 : String → ParseResult := fun _ => .ok (some "F") [itemC2]

/-- Environment for the idempotence witness: the one parsable date is well
inside the retention window. -/
def envC2w : Env :=
  ⟨fun s => s, fun s => if s = "2000-01-01T00:00:00+00:00" then some 2600000 else none,
   fun _ => "x", fun _ => .netError, fun s => s, fun s => s, 2592100⟩

/-- A feed item whose stored publication instant survives pruning. -/
def itemC2w : Item := ⟨some "g1", none, some "T", some "D", some "2000-01-01T00:00:00Z", none⟩

/-- Every feed parses to the single fresh item. -/
def parsesC2w : String → ParseResult := fun _ => .ok (some "F") [itemC2w]

/-- An article row published at epoch 0. -/
def artC5 : ArticleRow := ⟨"feedA", "id1", "T", "L", "D", none, 0⟩

/-- An item whose title contains the keyword in different case. -/
def itemC6 : Item := ⟨none, none, some "Big PYTHON news", some "", none, none⟩

/-- Environment whose single date string parses to a known instant. -/
def envC8 : Env :=
  ⟨fun s => s, fun s => if s = "2024-05-01T10:00:00+00:00" then some 1714557600 else none,
   fun _ => "now", fun _ => .netError, fun s => s, fun s => s, 777⟩

/-- An item with a trailing-Z publication date. -/
def itemC8 : Item := ⟨none, none, none, none, some "2024-05-01T10:00:00Z", none⟩

/-- Environment whose fetches succeed with content not matching "python". -/
def envC10 : Env :=
  ⟨fun s => s, fun _ => none, fun _ => "x", fun _ => .ok "<p>rust</p>",
   fun s => s, fun s => s, 10⟩

/-- An unseen item that fails the "python" keyword filter. -/
def itemC10 : Item := ⟨some "g9", some "http://x", some "Rust story", some "systems", none, none⟩

/-! ### Helper lemmas -/

theorem isPrefixList_iff (n : List Char) : ∀ h : List Char,
    isPrefixList n h = true ↔ ∃ t, h = n ++ t := by
  induction n with
  | nil => intro h; simp [isPrefixList]
  | cons a as ih =>
    intro h
    cases h with
    | nil => simp [isPrefixList]
    | cons b bs =>
      simp only [isPrefixList, Bool.and_eq_true, beq_iff_eq, ih, List.cons_append,
        List.cons.injEq]
      constructor
      · rintro ⟨rfl, t, rfl⟩; exact ⟨t, rfl, rfl⟩
      · rintro ⟨t, rfl, rfl⟩; exact ⟨rfl, t, rfl⟩

theorem containsSub_iff (n : List Char) : ∀ h : List Char,
    containsSub n h = true ↔ ∃ l r, h = l ++ n ++ r := by
  intro h
  induction h with
  | nil =>
    simp only [containsSub, isPrefixList_iff]
    constructor
    · rintro ⟨t, ht⟩
      rcases List.append_eq_nil.mp ht.symm with ⟨rfl, rfl⟩
      exact ⟨[], [], rfl⟩
    · rintro ⟨l, r, hlr⟩
      rcases List.append_eq_nil.mp hlr.symm with ⟨h1, rfl⟩
      rcases List.append_eq_nil.mp h1 with ⟨rfl, rfl⟩
      exact ⟨[], rfl⟩
  | cons c t ih =>
    simp only [containsSub, Bool.or_eq_true, isPrefixList_iff, ih]
    constructor
    · rintro (⟨s, hs⟩ | ⟨l, r, rfl⟩)
      · exact ⟨[], s, by simpa using hs⟩
      · exact ⟨c :: l, r, rfl⟩
    · rintro ⟨l, r, hlr⟩
      cases l with
      | nil => exact Or.inl ⟨r, by simpa using hlr⟩
      | cons x xs =>
        simp only [List.cons_append, List.cons.injEq] at hlr
        exact Or.inr ⟨xs, r, hlr.2⟩

theorem pyLower_append (a b : String) : pyLower (a ++ b) = pyLower a ++ pyLower b := by
  simp only [pyLower]
  apply congrArg String.mk
  exact List.map_append Char.toLower a.data b.data

theorem pyOr_none (b : String) : pyOr none b = b := rfl

theorem pyOr_empty (c : Option String) : pyOr c "" = c.getD "" := by
  cases c with
  | none => rfl
  | some s =>
    simp only [pyOr, Option.getD_some]
    split <;> simp_all

theorem lookupFeed_updateFeed_self (fs : List (String × FeedRow)) (url : String)
    (f : FeedRow → FeedRow) :
    lookupFeed (updateFeed fs url f) url = (lookupFeed fs url).map f := by
  induction fs with
  | nil => rfl
  | cons p t ih =>
    obtain ⟨u, r⟩ := p
    by_cases h : u = url
    · simp only [updateFeed, if_pos h, lookupFeed, ih]
      simp [h]
    · simp only [updateFeed, if_neg h, lookupFeed, if_neg h, ih]

theorem lookupFeed_updateFeed_ne (fs : List (String × FeedRow)) (url u : String)
    (f : FeedRow → FeedRow) (h : u ≠ url) :
    lookupFeed (updateFeed fs url f) u = lookupFeed fs u := by
  induction fs with
  | nil => rfl
  | cons p t ih =>
    obtain ⟨u0, r⟩ := p
    by_cases h0 : u0 = url
    · have h1 : ¬u0 = u := fun hh => h (hh ▸ h0)
      simp only [updateFeed, if_pos h0, lookupFeed, if_neg h1, ih]
    · simp only [updateFeed, if_neg h0, lookupFeed]
      by_cases h1 : u0 = u
      · simp only [if_pos h1]
      · simp only [if_neg h1, ih]

theorem updateFeed_keys (fs : List (String × FeedRow)) (url : String)
    (f : FeedRow → FeedRow) :
    (updateFeed fs url f).map Prod.fst = fs.map Prod.fst := by
  induction fs with
  | nil => rfl
  | cons p t ih =>
    obtain ⟨u, r⟩ := p
    by_cases h : u = url
    · simp only [updateFeed, if_pos h, List.map_cons, ih]
    · simp only [updateFeed, if_neg h, List.map_cons, ih]

theorem seenIds_append (a b : List ArticleRow) (url : String) :
    seenIds (a ++ b) url = seenIds a url ++ seenIds b url := by
  simp [seenIds, List.filter_append]

theorem seenIds_cons (a : ArticleRow) (t : List ArticleRow) (url : String) :
    seenIds (a :: t) url =
      if a.feed_url = url then a.identifier :: seenIds t url else seenIds t url := by
  simp only [seenIds, List.filter_cons]
  by_cases h : a.feed_url = url <;> simp [h]

theorem mem_pairs_iff (arts : List ArticleRow) (url i : String) :
    (url, i) ∈ arts.map (fun a => (a.feed_url, a.identifier)) ↔ i ∈ seenIds arts url := by
  induction arts with
  | nil => simp [seenIds]
  | cons a t ih =>
    rw [seenIds_cons]
    by_cases h : a.feed_url = url
    · simp [h, ih]
    · have h1 : url ≠ a.feed_url := fun hh => h hh.symm
      simp [h, h1, ih]

theorem toRow_feed_url (a : NewArt) (url : String) : (a.toRow url).feed_url = url := rfl

theorem toRow_identifier (a : NewArt) (url : String) :
    (a.toRow url).identifier = a.identifier := rfl

theorem seenIds_toRow (news : List NewArt) (url : String) :
    seenIds (news.map (·.toRow url)) url = news.map (·.identifier) := by
  induction news with
  | nil => rfl
  | cons a t ih =>
    rw [List.map_cons, seenIds_cons, toRow_feed_url, if_pos (rfl : url = url),
      toRow_identifier, ih, List.map_cons]

theorem filter_idem {α : Type} (l : List α) (p : α → Bool) :
    (l.filter p).filter p = l.filter p := by
  rw [List.filter_filter]; simp

/-- The step `processItem` re-expressed through `contentOf`/`passesFilter` (definitional). -/
theorem processItem_eq (env : Env) (kw : String) (item : Item)
    (news : List NewArt) (seen fetched : List String) :
    processItem env kw item news seen fetched =
      if get_article_identifier env.sha256hex item ∈ seen then (news, seen, fetched)
      else
        if passesFilter env kw item then
          (news ++ [⟨get_article_identifier env.sha256hex item, item.title.getD "No title",
             item.link.getD "No link", item.description.getD "No description",
             contentOf env item, parse_pub_date env item⟩],
           get_article_identifier env.sha256hex item :: seen,
           if item.link.getD "No link" = "" then fetched
             else fetched ++ [item.link.getD "No link"])
        else (news, seen,
          if item.link.getD "No link" = "" then fetched
            else fetched ++ [item.link.getD "No link"]) := rfl

theorem processItem_fetched_mono (env : Env) (kw : String) (item : Item)
    (news : List NewArt) (seen fetched : List String) (x : String) (hx : x ∈ fetched) :
    x ∈ (processItem env kw item news seen fetched).2.2 := by
  rw [processItem_eq]
  by_cases h1 : get_article_identifier env.sha256hex item ∈ seen
  · simpa [h1] using hx
  · by_cases h2 : passesFilter env kw item = true
    · by_cases h3 : item.link.getD "No link" = "" <;> simp [h1, h2, h3, hx]
    · by_cases h3 : item.link.getD "No link" = "" <;> simp [h1, h2, h3, hx]

theorem collectNew_fetched_mono (env : Env) (kw : String) (entries : List Item) :
    ∀ news seen fetched x, x ∈ fetched →
      x ∈ (collectNew env kw news seen fetched entries).2.2 := by
  induction entries with
  | nil => intro news seen fetched x hx; exact hx
  | cons item rest ih =>
    intro news seen fetched x hx
    simp only [collectNew]
    exact ih _ _ _ x (processItem_fetched_mono env kw item news seen fetched x hx)

/-- If every entry is already seen or fails its filter, the item loop accepts
nothing and the seen set is unchanged. -/
theorem collectNew_no_new (env : Env) (kw : String) (seen : List String) :
    ∀ entries fetched,
      (∀ item ∈ entries, get_article_identifier env.sha256hex item ∈ seen ∨
        passesFilter env kw item = false) →
      (collectNew env kw [] seen fetched entries).1 = [] ∧
      (collectNew env kw [] seen fetched entries).2.1 = seen := by
  intro entries
  induction entries with
  | nil => intro fetched _; exact ⟨rfl, rfl⟩
  | cons item rest ih =>
    intro fetched h
    have hrest : ∀ i ∈ rest, get_article_identifier env.sha256hex i ∈ seen ∨
        passesFilter env kw i = false := fun i hi => h i (List.mem_cons_of_mem item hi)
    simp only [collectNew, processItem_eq]
    by_cases h1 : get_article_identifier env.sha256hex item ∈ seen
    · simp only [if_pos h1]
      exact ih fetched hrest
    · rcases h item (List.mem_cons_self item rest) with h2 | h2
      · exact absurd h2 h1
      · simp only [if_neg h1, h2, Bool.false_eq_true, if_false]
        exact ih _ hrest

/-- The dedup invariant of the item loop: the in-memory seen set is exactly
the stored identifiers plus the identifiers accepted so far, the accepted
identifiers are pairwise distinct, and none of them was already stored. -/
theorem collectNew_inv (env : Env) (kw : String) (seen0 : List String) :
    ∀ entries news seen fetched,
      (∀ i, i ∈ seen ↔ i ∈ news.map (·.identifier) ∨ i ∈ seen0) →
      (news.map (·.identifier)).Nodup →
      (∀ i ∈ news.map (·.identifier), i ∉ seen0) →
      ((∀ i, i ∈ (collectNew env kw news seen fetched entries).2.1 ↔
          i ∈ (collectNew env kw news seen fetched entries).1.map (·.identifier) ∨
            i ∈ seen0) ∧
       ((collectNew env kw news seen fetched entries).1.map (·.identifier)).Nodup ∧
       (∀ i ∈ (collectNew env kw news seen fetched entries).1.map (·.identifier),
          i ∉ seen0)) := by
  intro entries
  induction entries with
  | nil => intro news seen fetched h1 h2 h3; exact ⟨h1, h2, h3⟩
  | cons item rest ih =>
    intro news seen fetched h1 h2 h3
    simp only [collectNew, processItem_eq]
    by_cases h4 : get_article_identifier env.sha256hex item ∈ seen
    · simp only [if_pos h4]
      exact ih news seen fetched h1 h2 h3
    · have h5 : get_article_identifier env.sha256hex item ∉ news.map (·.identifier) ∧
          get_article_identifier env.sha256hex item ∉ seen0 := by
        have := (h1 (get_article_identifier env.sha256hex item)).not
        rw [not_or] at this
        exact this.mp h4
      by_cases h6 : passesFilter env kw item = true
      · simp only [if_neg h4, if_pos h6]
        apply ih
        · intro i
          simp only [List.mem_cons, h1 i, List.map_append, List.mem_append,
            List.map_cons, List.map_nil, List.mem_singleton]
          tauto
        · rw [List.map_append, List.nodup_append]
          refine ⟨h2, by simp, ?_⟩
          intro x hx hx2
          simp only [List.map_cons, List.map_nil, List.mem_singleton] at hx2
          exact h5.1 (hx2 ▸ hx)
        · intro i hi
          rw [List.map_append, List.mem_append] at hi
          rcases hi with hi | hi
          · exact h3 i hi
          · simp only [List.map_cons, List.map_nil, List.mem_singleton] at hi
            exact hi ▸ h5.2
      · simp only [if_neg h4, if_neg h6]
        exact ih news seen _ h1 h2 h3

/-- The per-feed step preserves the UNIQUE(feed_url, identifier) constraint:
every row the pass inserts has an identifier absent from the feed's stored
rows, and the inserted identifiers are pairwise distinct. -/
theorem processFeed_pairsUnique (env : Env) (db : DB) (url kw : String)
    (pr : ParseResult) (h : PairsUnique db.articles) :
    PairsUnique (processFeed env db url kw pr).1.articles := by
  cases pr with
  | bozo err => exact h
  | ok t es =>
    have hinv := collectNew_inv env kw (seenIds db.articles url) es [] (seenIds db.articles url)
      [] (by simp) (by simp) (by simp)
    by_cases hn : (collectNew env kw [] (seenIds db.articles url) [] es).1 = []
    · simp only [processFeed, if_pos hn]
      exact h
    · simp only [processFeed, if_neg hn]
      unfold PairsUnique
      rw [List.map_append, List.nodup_append]
      refine ⟨h, ?_, ?_⟩
      · rw [List.map_map]
        have heq : ((collectNew env kw [] (seenIds db.articles url) [] es).1.map
              ((fun a => (a.feed_url, a.identifier)) ∘ (·.toRow url))) =
            ((collectNew env kw [] (seenIds db.articles url) [] es).1.map
              (·.identifier)).map (fun i => (url, i)) := by
          rw [List.map_map]
          rfl
        rw [heq]
        exact hinv.2.1.map (fun a b hab => by
          simpa using congrArg Prod.snd hab)
      · intro p hp1 hp2
        rw [List.map_map] at hp2
        have heq : ((collectNew env kw [] (seenIds db.articles url) [] es).1.map
              ((fun a => (a.feed_url, a.identifier)) ∘ (·.toRow url))) =
            ((collectNew env kw [] (seenIds db.articles url) [] es).1.map
              (·.identifier)).map (fun i => (url, i)) := by
          rw [List.map_map]
          rfl
        rw [heq, List.mem_map] at hp2
        obtain ⟨i, hi, rfl⟩ := hp2
        have : i ∈ seenIds db.articles url := (mem_pairs_iff db.articles url i).mp hp1
        exact hinv.2.2 i hi this

theorem runFeeds_pairsUnique (env : Env) (parses : String → ParseResult) :
    ∀ cfg (db : DB), PairsUnique db.articles →
      PairsUnique (runFeeds env parses db cfg).1.articles := by
  intro cfg
  induction cfg with
  | nil => intro db h; exact h
  | cons p rest ih =>
    intro db h
    obtain ⟨url, kw⟩ := p
    simp only [runFeeds]
    exact ih _ (processFeed_pairsUnique env db url kw (parses url) h)

theorem pairsUnique_filter (arts : List ArticleRow) (p : ArticleRow → Bool)
    (h : PairsUnique arts) : PairsUnique (arts.filter p) :=
  h.sublist ((List.filter_sublist arts).map _)

theorem monitor_feeds_pairsUnique (env : Env) (cfg : List (String × String))
    (parses : String → ParseResult) (db : DB) (h : PairsUnique db.articles) :
    PairsUnique (monitor_feeds env cfg parses db).1.articles := by
  simp only [monitor_feeds, prune_old_articles]
  exact pairsUnique_filter _ _ (runFeeds_pairsUnique env parses cfg _ h)

theorem articleEmails_append (a b : List Email) :
    articleEmails (a ++ b) = articleEmails a ++ articleEmails b :=
  List.filter_append a b

theorem monitor_feeds_articles (env : Env) (cfg : List (String × String))
    (parses : String → ParseResult) (db : DB) :
    (monitor_feeds env cfg parses db).1.articles =
      ((runFeeds env parses { db with feeds := ensureFeeds db.feeds cfg env.now }
          cfg).1.articles).filter
        (fun a => !decide (a.pub_date < retentionCutoff env)) := rfl

theorem monitor_feeds_emails (env : Env) (cfg : List (String × String))
    (parses : String → ParseResult) (db : DB) :
    (monitor_feeds env cfg parses db).2.1 =
      (runFeeds env parses { db with feeds := ensureFeeds db.feeds cfg env.now }
        cfg).2.1 := rfl

/-- A feed pass where every entry is already stored or fails its filter
leaves the article table untouched and dispatches no article email. -/
theorem processFeed_no_new (env : Env) (db : DB) (url kw : String) (pr : ParseResult)
    (h : ∀ t es, pr = ParseResult.ok t es → ∀ item ∈ es,
      get_article_identifier env.sha256hex item ∈ seenIds db.articles url ∨
        passesFilter env kw item = false) :
    (processFeed env db url kw pr).1.articles = db.articles ∧
    articleEmails (processFeed env db url kw pr).2.1 = [] := by
  cases pr with
  | bozo err =>
    refine ⟨rfl, ?_⟩
    simp only [processFeed]
    by_cases hc : ERROR_THRESHOLD ≤ ((lookupFeed (updateFeed db.feeds url
        (fun r => { r with failure_count := r.failure_count + 1 })) url).map
          (·.failure_count)).getD 0
    · simp [hc, articleEmails, alertEmail]
    · simp [hc, articleEmails]
  | ok t es =>
    have hno := collectNew_no_new env kw (seenIds db.articles url) es [] (h t es rfl)
    constructor
    · simp [processFeed, hno.1]
    · simp [processFeed, hno.1, articleEmails]

theorem runFeeds_no_new (env : Env) (parses : String → ParseResult) :
    ∀ cfg (db : DB),
      (∀ url kw, (url, kw) ∈ cfg → ∀ t es, parses url = ParseResult.ok t es →
        ∀ item ∈ es, passesFilter env kw item = true →
          get_article_identifier env.sha256hex item ∈ seenIds db.articles url) →
      (runFeeds env parses db cfg).1.articles = db.articles ∧
      articleEmails (runFeeds env parses db cfg).2.1 = [] := by
  intro cfg
  induction cfg with
  | nil => intro db _; exact ⟨rfl, rfl⟩
  | cons p rest ih =>
    intro db H
    obtain ⟨url, kw⟩ := p
    have h1 : ∀ t es, parses url = ParseResult.ok t es → ∀ item ∈ es,
        get_article_identifier env.sha256hex item ∈ seenIds db.articles url ∨
          passesFilter env kw item = false := by
      intro t es hp item hi
      by_cases hpass : passesFilter env kw item = true
      · exact Or.inl (H url kw (List.mem_cons_self _ _) t es hp item hi hpass)
      · exact Or.inr (by simpa using hpass)
    have hstep := processFeed_no_new env db url kw (parses url) h1
    have ihr := ih (processFeed env db url kw (parses url)).1 (by
      intro url2 kw2 hm t es hp item hi hpass
      rw [hstep.1]
      exact H url2 kw2 (List.mem_cons_of_mem _ hm) t es hp item hi hpass)
    simp only [runFeeds]
    refine ⟨?_, ?_⟩
    · rw [ihr.1, hstep.1]
    · rw [articleEmails_append, hstep.2, ihr.2]
      rfl

/-- An identifier whose every carrier fails the filter is neither accepted
nor added to the seen set by the item loop. -/
theorem collectNew_avoid (env : Env) (kw : String) (idt : String) :
    ∀ entries news seen fetched,
      (∀ item ∈ entries, get_article_identifier env.sha256hex item = idt →
        passesFilter env kw item = false) →
      idt ∉ seen → idt ∉ news.map (·.identifier) →
      idt ∉ (collectNew env kw news seen fetched entries).2.1 ∧
      idt ∉ (collectNew env kw news seen fetched entries).1.map (·.identifier) := by
  intro entries
  induction entries with
  | nil => intro news seen fetched _ h1 h2; exact ⟨h1, h2⟩
  | cons item rest ih =>
    intro news seen fetched hfail h1 h2
    have hrest : ∀ i ∈ rest, get_article_identifier env.sha256hex i = idt →
        passesFilter env kw i = false :=
      fun i hi => hfail i (List.mem_cons_of_mem _ hi)
    simp only [collectNew, processItem_eq]
    by_cases h4 : get_article_identifier env.sha256hex item ∈ seen
    · simp only [if_pos h4]
      exact ih news seen fetched hrest h1 h2
    · by_cases h6 : passesFilter env kw item = true
      · have hne : get_article_identifier env.sha256hex item ≠ idt := by
          intro he
          rw [hfail item (List.mem_cons_self _ _) he] at h6
          exact Bool.false_ne_true h6
        simp only [if_neg h4, if_pos h6]
        apply ih _ _ _ hrest
        · intro hc
          rcases List.mem_cons.mp hc with hc | hc
          · exact hne hc.symm
          · exact h1 hc
        · rw [List.map_append]
          intro hc
          rcases List.mem_append.mp hc with hc | hc
          · exact h2 hc
          · simp only [List.map_cons, List.map_nil, List.mem_singleton] at hc
            exact hne hc.symm
      · simp only [if_neg h4, if_neg h6]
        exact ih news seen _ hrest h1 h2

/-- An entry whose identifier is not yet seen has its link handed to
`fetch_article_content` during the loop (whatever the filter decides),
provided every carrier of that identifier fails the filter, so that earlier
entries cannot have marked it seen. -/
theorem collectNew_fetches (env : Env) (kw : String) (item : Item) :
    ∀ entries, item ∈ entries →
      (∀ item2 ∈ entries, get_article_identifier env.sha256hex item2 =
          get_article_identifier env.sha256hex item →
        passesFilter env kw item2 = false) →
      ∀ news seen fetched, get_article_identifier env.sha256hex item ∉ seen →
        item.link.getD "No link" ≠ "" →
        item.link.getD "No link" ∈ (collectNew env kw news seen fetched entries).2.2 := by
  intro entries
  induction entries with
  | nil => intro h; exact absurd h (List.not_mem_nil _)
  | cons i0 rest ih =>
    intro hmem hfail news seen fetched hseen hlink
    have hrest : ∀ i ∈ rest, get_article_identifier env.sha256hex i =
        get_article_identifier env.sha256hex item → passesFilter env kw i = false :=
      fun i hi => hfail i (List.mem_cons_of_mem _ hi)
    simp only [collectNew, processItem_eq]
    rcases List.mem_cons.mp hmem with rfl | hmem2
    · simp only [if_neg hseen, if_neg hlink]
      by_cases h6 : passesFilter env kw item = true
      · simp only [if_pos h6]
        exact collectNew_fetched_mono env kw rest _ _ _ _
          (List.mem_append.mpr (Or.inr (List.mem_singleton.mpr rfl)))
      · simp only [if_neg h6]
        exact collectNew_fetched_mono env kw rest _ _ _ _
          (List.mem_append.mpr (Or.inr (List.mem_singleton.mpr rfl)))
    · by_cases h4 : get_article_identifier env.sha256hex i0 ∈ seen
      · simp only [if_pos h4]
        exact ih hmem2 hrest news seen fetched hseen hlink
      · by_cases h6 : passesFilter env kw i0 = true
        · have hne : get_article_identifier env.sha256hex i0 ≠
              get_article_identifier env.sha256hex item := by
            intro he
            rw [hfail i0 (List.mem_cons_self _ _) he] at h6
            exact Bool.false_ne_true h6
          simp only [if_neg h4, if_pos h6]
          apply ih hmem2 hrest
          · intro hc
            rcases List.mem_cons.mp hc with hc | hc
            · exact hne hc.symm
            · exact hseen hc
          · exact hlink
        · simp only [if_neg h4, if_neg h6]
          exact ih hmem2 hrest news seen _ hseen hlink

/-! ### Per-feed row effects -/

theorem processFeed_bozo_feeds (env : Env) (db : DB) (url kw err : String) :
    (processFeed env db url kw (.bozo err)).1.feeds =
      updateFeed db.feeds url (fun r => { r with failure_count := r.failure_count + 1 }) :=
  rfl

theorem processFeed_bozo_articles (env : Env) (db : DB) (url kw err : String) :
    (processFeed env db url kw (.bozo err)).1.articles = db.articles := rfl

theorem processFeed_bozo_lookup (env : Env) (db : DB) (url kw err : String)
    (row : FeedRow) (h : lookupFeed db.feeds url = some row) :
    lookupFeed (processFeed env db url kw (.bozo err)).1.feeds url =
      some ⟨row.last_checked, row.failure_count + 1⟩ := by
  rw [processFeed_bozo_feeds, lookupFeed_updateFeed_self, h]
  rfl

theorem processFeed_bozo_emails (env : Env) (db : DB) (url kw err : String)
    (row : FeedRow) (h : lookupFeed db.feeds url = some row) :
    (processFeed env db url kw (.bozo err)).2.1 =
      if ERROR_THRESHOLD ≤ row.failure_count + 1 then
        [alertEmail url (row.failure_count + 1) err] else [] := by
  simp only [processFeed, lookupFeed_updateFeed_self, h]
  rfl

theorem processFeed_ok_feeds (env : Env) (db : DB) (url kw : String)
    (t : Option String) (es : List Item) :
    (processFeed env db url kw (.ok t es)).1.feeds =
      updateFeed db.feeds url (fun _ => ⟨env.now, 0⟩) := rfl

theorem processFeed_ok_lookup (env : Env) (db : DB) (url kw : String)
    (t : Option String) (es : List Item) (row : FeedRow)
    (h : lookupFeed db.feeds url = some row) :
    lookupFeed (processFeed env db url kw (.ok t es)).1.feeds url =
      some ⟨env.now, 0⟩ := by
  rw [processFeed_ok_feeds, lookupFeed_updateFeed_self, h]
  rfl

theorem processFeed_feeds_keys (env : Env) (db : DB) (url kw : String)
    (pr : ParseResult) :
    (processFeed env db url kw pr).1.feeds.map Prod.fst = db.feeds.map Prod.fst := by
  cases pr with
  | bozo err => rw [processFeed_bozo_feeds, updateFeed_keys]
  | ok t es => rw [processFeed_ok_feeds, updateFeed_keys]

theorem processFeed_lookup_ne (env : Env) (db : DB) (url kw : String)
    (pr : ParseResult) (u : String) (h : u ≠ url) :
    lookupFeed (processFeed env db url kw pr).1.feeds u = lookupFeed db.feeds u := by
  cases pr with
  | bozo err => rw [processFeed_bozo_feeds, lookupFeed_updateFeed_ne _ _ _ _ h]
  | ok t es => rw [processFeed_ok_feeds, lookupFeed_updateFeed_ne _ _ _ _ h]

theorem lookupFeed_append_left (fs l : List (String × FeedRow)) (u : String)
    (r : FeedRow) (h : lookupFeed fs u = some r) : lookupFeed (fs ++ l) u = some r := by
  induction fs with
  | nil => cases h
  | cons p t ih =>
    obtain ⟨u0, r0⟩ := p
    by_cases h0 : u0 = u
    · simp only [List.cons_append, lookupFeed, if_pos h0] at h ⊢
      exact h
    · simp only [List.cons_append, lookupFeed, if_neg h0] at h ⊢
      exact ih h

/-- The `INSERT OR IGNORE` step never modifies or deletes an existing feed row. -/
theorem ensureFeeds_preserves (cfg : List (String × String)) :
    ∀ fs now u r, lookupFeed fs u = some r →
      lookupFeed (ensureFeeds fs cfg now) u = some r := by
  induction cfg with
  | nil => intro fs now u r h; exact h
  | cons p rest ih =>
    intro fs now u r h
    by_cases hs : (lookupFeed fs p.1).isSome
    · have : ensureFeeds fs (p :: rest) now = ensureFeeds fs rest now := by
        simp [ensureFeeds, hs]
      rw [this]
      exact ih fs now u r h
    · have : ensureFeeds fs (p :: rest) now =
          ensureFeeds (fs ++ [(p.1, ⟨now, 0⟩)]) rest now := by
        simp [ensureFeeds, hs]
      rw [this]
      exact ih _ now u r (lookupFeed_append_left fs _ u r h)

theorem iterBozo_lookup (env : Env) (url kw err : String) :
    ∀ n (db : DB) (row : FeedRow), lookupFeed db.feeds url = some row →
      lookupFeed (iterPasses (bozoStep env url kw err) n db).feeds url =
        some ⟨row.last_checked, row.failure_count + n⟩ := by
  intro n
  induction n with
  | zero => intro db row h; simpa using h
  | succ n ih =>
    intro db row h
    simp only [iterPasses]
    have h2 := processFeed_bozo_lookup env db url kw err row h
    have h3 := ih (bozoStep env url kw err db) ⟨row.last_checked, row.failure_count + 1⟩ h2
    have h4 : row.failure_count + 1 + n = row.failure_count + (n + 1) := by omega
    simp only [h4] at h3
    exact h3

/-! ### Claim theorems -/

/-- C3: the derived identifier follows the priority order — a non-empty GUID
is used verbatim regardless of the other fields; otherwise a non-empty link
is used verbatim; otherwise the identifier is the hex sha256 digest of the
concatenated title and publication-date strings (empty string when absent).
The function is total and deterministic by construction. -/
theorem c3_identifier_priority (sha256hex : String → String) (item : Item) :
    (∀ g, item.guid = some g → g ≠ "" → get_article_identifier sha256hex item = g) ∧
    (item.guid.getD "" = "" → ∀ l, item.link = some l → l ≠ "" →
      get_article_identifier sha256hex item = l) ∧
    (item.guid.getD "" = "" → item.link.getD "" = "" →
      get_article_identifier sha256hex item =
        sha256hex ((item.title.getD "") ++ (item.published.getD (item.pubdate.getD "")))) := by
  refine ⟨?_, ?_, ?_⟩
  · intro g hg hne
    simp [get_article_identifier, hg, hne]
  · intro hg l hl hne
    simp [get_article_identifier, hg, hl, hne]
  · intro hg hl
    simp [get_article_identifier, hg, hl]

theorem c3_identifier_priority_witness :
    get_article_identifier (fun s => "sha:" ++ s) itemG = "g1" :=
  (c3_identifier_priority (fun s => "sha:" ++ s) itemG).1 "g1" rfl (by decide)

/-- C5 counterexample: pruning `[artC5]` (published at 0) with cutoff 10
deletes the one row, yet the operation returns `None` — not the count 1 of
deleted rows that the claim asserts. -/
theorem c5_counterexample :
    (prune_old_articles [artC5] 10).1 = [] ∧
    (prune_old_articles [artC5] 10).2 ≠ some 1 := by decide

/-- C5 (amended): prune, invoked once as the final step of a pass with
cutoff now − 30 days, keeps exactly the articles whose publication timestamp
is at or after the cutoff (deleting the strictly older ones), never inspects
feed identity (relabelling feed URLs commutes with pruning), and returns no
deleted-row count — the function's value is `None`. -/
theorem c5_amended_prune (articles : List ArticleRow) (cutoff : Int) :
    (∀ a, a ∈ (prune_old_articles articles cutoff).1 ↔
      a ∈ articles ∧ ¬a.pub_date < cutoff) ∧
    (prune_old_articles articles cutoff).2 = none ∧
    (∀ f : ArticleRow → String,
      (prune_old_articles (articles.map (fun a => { a with feed_url := f a }))
          cutoff).1 =
        ((prune_old_articles articles cutoff).1).map
          (fun a => { a with feed_url := f a })) ∧
    (∀ env cfg parses (db : DB), (monitor_feeds env cfg parses db).1.articles =
      (prune_old_articles (runFeeds env parses
        { db with feeds := ensureFeeds db.feeds cfg env.now } cfg).1.articles
        (retentionCutoff env)).1) := by
  refine ⟨?_, rfl, ?_, ?_⟩
  · intro a
    simp [prune_old_articles, List.mem_filter]
  · intro f
    simp only [prune_old_articles]
    induction articles with
    | nil => rfl
    | cons a t ih =>
      simp only [List.map_cons, List.filter_cons]
      have hpd : ({ a with feed_url := f a } : ArticleRow).pub_date = a.pub_date := rfl
      by_cases h : a.pub_date < cutoff <;> simp [hpd, h, ih]
  · intro env cfg parses db
    rfl

theorem c5_amended_prune_witness :
    artC5 ∈ [artC5] ∧ ¬artC5.pub_date < (-5 : Int) ∧
    artC5 ∈ (prune_old_articles [artC5] (-5)).1 ∧
    (prune_old_articles [artC5] (-5)).2 = none :=
  ⟨by decide, by decide,
   ((c5_amended_prune [artC5] (-5)).1 artC5).mpr ⟨by decide, by decide⟩,
   (c5_amended_prune [artC5] (-5)).2.1⟩

/-- C6: the filter is a pure total predicate; the empty keyword accepts
everything, and a non-empty keyword accepts exactly when its case-folded
form occurs as a literal substring of the case-folded concatenation of
title, description and extracted content (empty for absent content). -/
theorem c6_filter_semantics :
    (∀ item c, matches_filter item c "" = true) ∧
    (∀ item (c : Option String) (kw : String), kw ≠ "" →
      (matches_filter item c kw = true ↔
        ∃ l r, (pyLower ((item.title.getD "") ++ (item.description.getD "")
            ++ (c.getD ""))).data = l ++ (pyLower kw).data ++ r)) := by
  constructor
  · intro item c; rfl
  · intro item c kw hkw
    simp only [matches_filter, if_neg hkw]
    rw [containsSub_iff, pyOr_empty, pyLower_append, pyLower_append]

theorem c6_filter_semantics_witness :
    ∃ l r, (pyLower ((itemC6.title.getD "") ++ (itemC6.description.getD "")
        ++ ((some "" : Option String).getD ""))).data =
      l ++ (pyLower "python").data ++ r :=
  (c6_filter_semantics.2 itemC6 (some "") "python" (by decide)).mp (by decide)

/-- C7: content extraction never escapes to its caller — every failing fetch
outcome yields the `none` sentinel; an unseen, filter-passing item whose
fetch failed is still inserted (with no extracted content); and the
notification line substitutes the feed description for missing content. -/
theorem c7_content_failure_absorbed (env : Env) :
    (∀ url, env.fetch url = .netError → fetch_article_content env url = none) ∧
    (∀ url s, env.fetch url = .httpError s → fetch_article_content env url = none) ∧
    (∀ url, env.fetch url = .parseError → fetch_article_content env url = none) ∧
    (∀ (db : DB) (url kw : String) (t : Option String) (item : Item),
      contentOf env item = none →
      get_article_identifier env.sha256hex item ∉ seenIds db.articles url →
      passesFilter env kw item = true →
      (processFeed env db url kw (.ok t [item])).1.articles =
        db.articles ++ [⟨url, get_article_identifier env.sha256hex item,
          item.title.getD "No title", item.link.getD "No link",
          item.description.getD "No description", none, parse_pub_date env item⟩]) ∧
    (∀ t l d, articleLine t l none d =
      "Title: " ++ t ++ "\nLink: " ++ l ++ "\nContent: " ++ d ++ "\n\n") := by
  refine ⟨?_, ?_, ?_, ?_, ?_⟩
  · intro url h; simp [fetch_article_content, h]
  · intro url s h; simp [fetch_article_content, h]
  · intro url h; simp [fetch_article_content, h]
  · intro db url kw t item h1 h2 h3
    have hr : collectNew env kw [] (seenIds db.articles url) [] [item] =
        ([⟨get_article_identifier env.sha256hex item, item.title.getD "No title",
           item.link.getD "No link", item.description.getD "No description",
           none, parse_pub_date env item⟩],
         get_article_identifier env.sha256hex item :: seenIds db.articles url,
         if item.link.getD "No link" = "" then [] else [item.link.getD "No link"]) := by
      simp only [collectNew, processItem_eq, if_neg h2, if_pos h3, h1, List.nil_append]
    simp only [processFeed, hr]
    simp [NewArt.toRow]
  · intro t l d; rfl

theorem c7_content_failure_absorbed_witness :
    fetch_article_content envW "http://u" = none :=
  (c7_content_failure_absorbed envW).1 "http://u" rfl

/-- C8: publication-date handling never rejects an article — a date string
(trailing "Z" replaced by "+00:00") that the ISO parser accepts is stored as
parsed; any string the parser rejects falls back to the current time; and an
absent date also stores the current time (via its own isoformat round
trip). -/
theorem c8_pub_date_handling (env : Env) (item : Item) :
    (∀ s d, item.published = some s →
      env.fromisoformat (pyReplace s "Z" "+00:00") = some d →
      parse_pub_date env item = d) ∧
    (∀ s, item.published = some s →
      env.fromisoformat (pyReplace s "Z" "+00:00") = none →
      parse_pub_date env item = env.now) ∧
    (item.published = none → item.pubdate = none →
      env.fromisoformat (pyReplace (env.isoformat env.now) "Z" "+00:00") =
        some env.now →
      parse_pub_date env item = env.now) := by
  refine ⟨?_, ?_, ?_⟩
  · intro s d h1 h2
    simp [parse_pub_date, h1, h2]
  · intro s h1 h2
    simp [parse_pub_date, h1, h2]
  · intro h1 h2 h3
    simp [parse_pub_date, h1, h2, h3]

theorem c8_pub_date_handling_witness :
    parse_pub_date envC8 itemC8 = 1714557600 :=
  (c8_pub_date_handling envC8 itemC8).1 "2024-05-01T10:00:00Z" 1714557600 rfl (by decide)

/-- C1: a pass never attempts a duplicate insert — the batch accepted for a
feed has pairwise-distinct identifiers, none of which is already stored for
that feed (so the UNIQUE-violation branch is unreachable), and consequently
the whole pass preserves the at-most-one-row-per-(feed, identifier)
invariant. -/
theorem c1_dedup_no_duplicate_insert (env : Env) (cfg : List (String × String))
    (parses : String → ParseResult) (db : DB) (h : PairsUnique db.articles) :
    PairsUnique (monitor_feeds env cfg parses db).1.articles ∧
    (∀ (db2 : DB) (url kw : String) (es : List Item),
      ((collectNew env kw [] (seenIds db2.articles url) [] es).1.map
        (·.identifier)).Nodup ∧
      ∀ i ∈ (collectNew env kw [] (seenIds db2.articles url) [] es).1.map
          (·.identifier),
        i ∉ seenIds db2.articles url) := by
  constructor
  · exact monitor_feeds_pairsUnique env cfg parses db h
  · intro db2 url kw es
    have hinv := collectNew_inv env kw (seenIds db2.articles url) es []
      (seenIds db2.articles url) [] (by simp) (by simp) (by simp)
    exact ⟨hinv.2.1, hinv.2.2⟩

theorem c1_dedup_no_duplicate_insert_witness :
    PairsUnique (monitor_feeds envW [("f", "")] (fun _ => .bozo "e") ⟨[], []⟩).1.articles :=
  (c1_dedup_no_duplicate_insert envW [("f", "")] (fun _ => .bozo "e") ⟨[], []⟩
    (by simp [PairsUnique])).1

/-- C2 counterexample: with the same single upstream item in both passes —
an item published before the retention cutoff — the first pass inserts and
then prunes it, so the second pass re-inserts it and dispatches a second
article notification, contradicting the claim's "no new rows and no
notification". -/
theorem c2_counterexample :
    articleEmails (monitor_feeds envC2 [("feedA", "")] parsesC2
      (monitor_feeds envC2 [("feedA", "")] parsesC2 ⟨[], []⟩).1).2.1 ≠ [] := by decide

/-- C2 (amended): two back-to-back passes over identical upstream items
create no rows and dispatch no article notification in the second pass,
provided the first pass's pruning left every filter-passing current item's
identifier in the store (the counterexample shows the proviso is necessary:
pruning an old-dated article that is still in the feed makes the second
pass re-insert and re-notify it). -/
theorem c2_amended_idempotent (env : Env) (cfg : List (String × String))
    (parses : String → ParseResult) (db0 : DB)
    (H : ∀ url kw, (url, kw) ∈ cfg → ∀ t es, parses url = ParseResult.ok t es →
      ∀ item ∈ es, passesFilter env kw item = true →
        get_article_identifier env.sha256hex item ∈
          seenIds (monitor_feeds env cfg parses db0).1.articles url) :
    (monitor_feeds env cfg parses (monitor_feeds env cfg parses db0).1).1.articles =
      (monitor_feeds env cfg parses db0).1.articles ∧
    articleEmails (monitor_feeds env cfg parses
      (monitor_feeds env cfg parses db0).1).2.1 = [] := by
  set db1 := (monitor_feeds env cfg parses db0).1 with hdb1
  have harts : ({ db1 with feeds := ensureFeeds db1.feeds cfg env.now } : DB).articles =
      db1.articles := rfl
  have hrun := runFeeds_no_new env parses cfg
    { db1 with feeds := ensureFeeds db1.feeds cfg env.now } (by
      intro url kw hm t es hp item hi hpass
      rw [harts]
      exact H url kw hm t es hp item hi hpass)
  constructor
  · rw [monitor_feeds_articles, hrun.1, harts]
    have hX := monitor_feeds_articles env cfg parses db0
    rw [← hdb1] at hX
    rw [hX, filter_idem]
  · rw [monitor_feeds_emails, hrun.2]

theorem c2_amended_idempotent_witness :
    (monitor_feeds envC2w [("feedA", "")] parsesC2w
        (monitor_feeds envC2w [("feedA", "")] parsesC2w ⟨[], []⟩).1).1.articles =
      (monitor_feeds envC2w [("feedA", "")] parsesC2w ⟨[], []⟩).1.articles :=
  (c2_amended_idempotent envC2w [("feedA", "")] parsesC2w ⟨[], []⟩ (by
    intro url kw hm t es hp item hi hpass
    simp only [List.mem_singleton, Prod.mk.injEq] at hm
    obtain ⟨rfl, rfl⟩ := hm
    have hp2 : ParseResult.ok (some "F") [itemC2w] = ParseResult.ok t es := hp
    injection hp2 with ht hes
    subst ht
    subst hes
    simp only [List.mem_singleton] at hi
    subst hi
    decide)).1

/-- C4: after N consecutive failing passes the persisted counter is its
starting value plus N (so N from a fresh row); one failing pass increments
the counter by exactly one and dispatches the alert email precisely when
the post-increment counter reaches ERROR_THRESHOLD (3) — on every such
pass, not only the crossing one; a successful parse resets the counter to
zero. -/
theorem c4_health_counter (env : Env) (url kw err : String) :
    (∀ (db : DB) (row : FeedRow), lookupFeed db.feeds url = some row →
      lookupFeed (bozoStep env url kw err db).feeds url =
        some ⟨row.last_checked, row.failure_count + 1⟩ ∧
      (processFeed env db url kw (.bozo err)).2.1 =
        (if ERROR_THRESHOLD ≤ row.failure_count + 1 then
          [alertEmail url (row.failure_count + 1) err] else [])) ∧
    (∀ (db : DB) (t : Option String) (es : List Item) (row : FeedRow),
      lookupFeed db.feeds url = some row →
      lookupFeed (processFeed env db url kw (.ok t es)).1.feeds url =
        some ⟨env.now, 0⟩) ∧
    (∀ n (db : DB) (row : FeedRow), lookupFeed db.feeds url = some row →
      lookupFeed (iterPasses (bozoStep env url kw err) n db).feeds url =
        some ⟨row.last_checked, row.failure_count + n⟩) := by
  refine ⟨?_, ?_, ?_⟩
  · intro db row h
    exact ⟨processFeed_bozo_lookup env db url kw err row h,
           processFeed_bozo_emails env db url kw err row h⟩
  · intro db t es row h
    exact processFeed_ok_lookup env db url kw t es row h
  · exact iterBozo_lookup env url kw err

theorem c4_health_counter_witness :
    lookupFeed (iterPasses (bozoStep envW "f" "" "boom") 3 dbW4).feeds "f" =
      some ⟨5, 3⟩ :=
  (c4_health_counter envW "f" "" "boom").2.2 3 dbW4 ⟨5, 0⟩ (by decide)

/-- C9: frame of the per-feed pass — a failing parse changes only the feed's
failure counter (articles untouched, last_checked kept, other feeds' rows
kept), a successful parse sets the counter to 0 and last_checked to now,
the pass never deletes a feed row, and the initial INSERT OR IGNORE never
modifies or deletes an existing row. -/
theorem c9_feed_row_frame (env : Env) (url kw : String) :
    (∀ (db : DB) (err : String) (row : FeedRow), lookupFeed db.feeds url = some row →
      (processFeed env db url kw (.bozo err)).1.articles = db.articles ∧
      lookupFeed (processFeed env db url kw (.bozo err)).1.feeds url =
        some ⟨row.last_checked, row.failure_count + 1⟩ ∧
      (∀ u, u ≠ url → lookupFeed (processFeed env db url kw (.bozo err)).1.feeds u =
        lookupFeed db.feeds u)) ∧
    (∀ (db : DB) (t : Option String) (es : List Item) (row : FeedRow),
      lookupFeed db.feeds url = some row →
      lookupFeed (processFeed env db url kw (.ok t es)).1.feeds url =
        some ⟨env.now, 0⟩) ∧
    (∀ (db : DB) (pr : ParseResult),
      (processFeed env db url kw pr).1.feeds.map Prod.fst = db.feeds.map Prod.fst) ∧
    (∀ (fs : List (String × FeedRow)) (cfg : List (String × String)) (now : Int)
      (u : String) (r : FeedRow), lookupFeed fs u = some r →
      lookupFeed (ensureFeeds fs cfg now) u = some r) := by
  refine ⟨?_, ?_, ?_, ?_⟩
  · intro db err row h
    exact ⟨rfl, processFeed_bozo_lookup env db url kw err row h,
      fun u hu => processFeed_lookup_ne env db url kw _ u hu⟩
  · intro db t es row h
    exact processFeed_ok_lookup env db url kw t es row h
  · intro db pr
    exact processFeed_feeds_keys env db url kw pr
  · intro fs cfg now u r h
    exact ensureFeeds_preserves cfg fs now u r h

theorem c9_feed_row_frame_witness :
    (processFeed envW dbW4 "f" "" (.bozo "boom")).1.articles = ([] : List ArticleRow) :=
  ((c9_feed_row_frame envW "f" "").1 dbW4 "boom" ⟨5, 0⟩ (by decide)).1

/-- C10: an unseen item that fails the keyword filter is neither inserted
nor added to the seen set (its identifier stays unknown to the store), its
link is still handed to the content fetcher during the pass, and no
accepted-article batch entry carries its identifier — so, the store being
unchanged for it, every later pass reprocesses it the same way while it
keeps failing the filter. -/
theorem c10_filtered_item_retried (env : Env) (db : DB) (url kw : String)
    (t : Option String) (entries : List Item) (item : Item)
    (hmem : item ∈ entries)
    (hfail : ∀ item2 ∈ entries, get_article_identifier env.sha256hex item2 =
        get_article_identifier env.sha256hex item →
      passesFilter env kw item2 = false)
    (hunseen : get_article_identifier env.sha256hex item ∉ seenIds db.articles url) :
    get_article_identifier env.sha256hex item ∉
      seenIds (processFeed env db url kw (.ok t entries)).1.articles url ∧
    get_article_identifier env.sha256hex item ∉
      (collectNew env kw [] (seenIds db.articles url) [] entries).1.map
        (·.identifier) ∧
    (item.link.getD "No link" ≠ "" →
      item.link.getD "No link" ∈ (processFeed env db url kw (.ok t entries)).2.2) := by
  have havoid := collectNew_avoid env kw (get_article_identifier env.sha256hex item)
    entries [] (seenIds db.articles url) [] hfail hunseen (by simp)
  refine ⟨?_, havoid.2, ?_⟩
  · have hartseq : (processFeed env db url kw (.ok t entries)).1.articles =
        (if (collectNew env kw [] (seenIds db.articles url) [] entries).1 = []
          then db.articles
          else db.articles ++ ((collectNew env kw [] (seenIds db.articles url) []
            entries).1.map (·.toRow url))) := rfl
    rw [hartseq]
    by_cases hn : (collectNew env kw [] (seenIds db.articles url) [] entries).1 = []
    · rw [if_pos hn]
      exact hunseen
    · rw [if_neg hn]
      intro hc
      rw [seenIds_append] at hc
      rcases List.mem_append.mp hc with hc | hc
      · exact hunseen hc
      · rw [seenIds_toRow] at hc
        exact havoid.2 hc
  · intro hlink
    have htrace : (processFeed env db url kw (.ok t entries)).2.2 =
        (collectNew env kw [] (seenIds db.articles url) [] entries).2.2 := rfl
    rw [htrace]
    exact collectNew_fetches env kw item entries hmem hfail [] _ [] hunseen hlink

theorem c10_filtered_item_retried_witness :
    get_article_identifier envC10.sha256hex itemC10 ∉
      seenIds (processFeed envC10 ⟨[], []⟩ "f" "python"
        (.ok none [itemC10])).1.articles "f" ∧
    "http://x" ∈ (processFeed envC10 ⟨[], []⟩ "f" "python" (.ok none [itemC10])).2.2 :=
  ⟨(c10_filtered_item_retried envC10 ⟨[], []⟩ "f" "python" none [itemC10] itemC10
      (by decide) (by decide) (by decide)).1,
   (c10_filtered_item_retried envC10 ⟨[], []⟩ "f" "python" none [itemC10] itemC10
      (by decide) (by decide) (by decide)).2.2 (by decide)⟩

end RssMonitor
